import Mathlib

/-!
Verification of the shadowcheck deduplicating ingestion and merge engine.

The development shallowly embeds the Python pipeline code:

* `src/pipelines/shared/safe_ingest.py` — the ingest gateway
  (`SafeIngestStats`, `SafeIngester.batch_insert_*`);
* `src/pipelines/wigle_api/merge_api_to_staging.py` — the two-phase
  cross-source merge engine (`enrich_network_metadata`,
  `merge_observations`, `check_schema_extended`, `main`);
* `src/server/pipelines/enrichment/wigle_api_alpha_v3.py` — the
  enrichment queue processor (`process_enrichment_queue`);
* `src/pipelines/wigle_api/import_network_detail.py` — the network
  detail import (`import_to_database` location filtering).

Database state is modelled as explicit lists of rows; floating point
coordinates are modelled as exact rationals; SQL timestamps are modelled
as integer epoch values.
-/

namespace ShadowCheck

/-! ## Ingest gateway (`src/pipelines/shared/safe_ingest.py`) -/

/-- Statistics from a batch ingestion operation (`SafeIngestStats`). -/
structure SafeIngestStats where
  total : Nat
  inserted : Nat
  duplicates : Nat
  deriving DecidableEq

/-- Property `SafeIngestStats.duplicate_rate`:
`(self.duplicates / self.total * 100) if self.total > 0 else 0.0`. -/
def SafeIngestStats.duplicate_rate (s : SafeIngestStats) : ℚ :=
  if 0 < s.total then (s.duplicates : ℚ) / (s.total : ℚ) * 100 else 0

/-- Modelled from the spec: the PostgreSQL functions
`app.safe_insert_wigle_api_location`, `app.safe_insert_legacy_location`
and `app.safe_insert_kml_location` are not under `src/` (the gateway only
calls them).  Per §4.1 they enforce at-most-once persistence per
fingerprint: the insert returns a positive count exactly when the
fingerprint is new, and a duplicate fingerprint leaves the store
unchanged.  The store is the list of persisted fingerprints. -/
def safeInsert {β : Type} [DecidableEq β] (store : List β) (fp : β) :
    List β × Int :=
  if fp ∈ store then (store, 0) else (fp :: store, 1)

/-- The per-record loop shared by `batch_insert_wigle_api_observations`
and `batch_insert_legacy_observations`: execute the safe-insert function
on each record in input order, incrementing `stats.inserted` when the
returned count is positive and `stats.duplicates` otherwise. -/
def ingestLoop {α β : Type} [DecidableEq β] (fp : α → β)
    (store : List β) (obs : List α) (ins dup : Nat) :
    List β × Nat × Nat :=
  match obs with
  | [] => (store, ins, dup)
  | o :: rest =>
      let r := safeInsert store (fp o)
      if 0 < r.2 then ingestLoop fp r.1 rest (ins + 1) dup
      else ingestLoop fp r.1 rest ins (dup + 1)

/-- One WiGLE API observation as passed to
`batch_insert_wigle_api_observations` (bssid, signal_level, lat, lon,
altitude, accuracy, time, query_params). -/
structure WigleApiRecord where
  bssid : String
  signal_level : Int
  lat : ℚ
  lon : ℚ
  altitude : Option ℚ
  accuracy : Option ℚ
  time : Int
  query_params : Option String
  deriving DecidableEq

/-- The composite key detecting duplicate observations (§4.1: entity id
+ signal level + coordinates + altitude/accuracy + timestamp). -/
structure ObsFingerprint where
  bssid : String
  level : Int
  lat : ℚ
  lon : ℚ
  altitude : Option ℚ
  accuracy : Option ℚ
  time : Int
  deriving DecidableEq

/-- The fingerprint of a WiGLE API observation: the argument tuple of
`app.safe_insert_wigle_api_location` minus the raw query metadata. -/
def WigleApiRecord.fingerprint (o : WigleApiRecord) : ObsFingerprint :=
  ⟨o.bssid, o.signal_level, o.lat, o.lon, o.altitude, o.accuracy, o.time⟩

/-- One legacy (SQLite) observation as passed to
`batch_insert_legacy_observations`. -/
structure LegacyRecord where
  bssid : String
  level : Int
  lat : ℚ
  lon : ℚ
  altitude : Option ℚ
  accuracy : Option ℚ
  time : Int
  source_id : Option Int
  deriving DecidableEq

/-- The fingerprint of a legacy observation: the staging table's
uniqueness key `(bssid, level, lat, lon, altitude, accuracy, time)`. -/
def LegacyRecord.fingerprint (o : LegacyRecord) : ObsFingerprint :=
  ⟨o.bssid, o.level, o.lat, o.lon, o.altitude, o.accuracy, o.time⟩

/-- One KML observation as passed to `batch_insert_kml_observations`. -/
structure KmlRecord where
  bssid : String
  ssid : Option String
  network_type : String
  encryption_type : Option String
  level : Int
  lat : ℚ
  lon : ℚ
  altitude : Option ℚ
  accuracy : Option ℚ
  time : Int
  kml_filename : String
  deriving DecidableEq

/-- The fingerprint of a KML observation (source-appropriate tuple per
§4.1: the network type joins the composite key). -/
structure KmlFingerprint where
  bssid : String
  network_type : String
  level : Int
  lat : ℚ
  lon : ℚ
  altitude : Option ℚ
  accuracy : Option ℚ
  time : Int
  deriving DecidableEq

/-- The fingerprint of a KML observation. -/
def KmlRecord.fingerprint (o : KmlRecord) : KmlFingerprint :=
  ⟨o.bssid, o.network_type, o.level, o.lat, o.lon, o.altitude, o.accuracy,
    o.time⟩

/-- Method `SafeIngester.batch_insert_wigle_api_observations`: an empty batch
returns `SafeIngestStats()` before any connection is opened; otherwise a
connection is opened and each observation is classified by the safe
insert function.  The result carries the returned statistics, the store
after the call, and the number of connections opened. -/
def batch_insert_wigle_api_observations
    (store : List ObsFingerprint)
    (observations : List WigleApiRecord) :
    SafeIngestStats × List ObsFingerprint × Nat :=
  if observations = [] then (⟨0, 0, 0⟩, store, 0)
  else
    let r := ingestLoop WigleApiRecord.fingerprint store observations 0 0
    (⟨observations.length, r.2.1, r.2.2⟩, r.1, 1)

/-- Method `SafeIngester.batch_insert_legacy_observations`: same shape as the
WiGLE API batch insert over `app.safe_insert_legacy_location`. -/
def batch_insert_legacy_observations
    (store : List ObsFingerprint)
    (observations : List LegacyRecord) :
    SafeIngestStats × List ObsFingerprint × Nat :=
  if observations = [] then (⟨0, 0, 0⟩, store, 0)
  else
    let r := ingestLoop LegacyRecord.fingerprint store observations 0 0
    (⟨observations.length, r.2.1, r.2.2⟩, r.1, 1)

/-- Method `SafeIngester.batch_insert_kml_observations`: an empty batch returns
`SafeIngestStats()` before any connection is opened; otherwise one call
to the PostgreSQL function `app.batch_insert_kml_locations` processes
the whole batch.  That function is not under `src/`; modelled from the
spec (§4.1) it classifies each record at-most-once by
fingerprint and reports `{total, inserted, duplicates}`. -/
def batch_insert_kml_observations
    (store : List KmlFingerprint)
    (observations : List KmlRecord) :
    SafeIngestStats × List KmlFingerprint × Nat :=
  if observations = [] then (⟨0, 0, 0⟩, store, 0)
  else
    let r := ingestLoop KmlRecord.fingerprint store observations 0 0
    (⟨observations.length, r.2.1, r.2.2⟩, r.1, 1)

/-! ## Cross-source merge engine
(`src/pipelines/wigle_api/merge_api_to_staging.py`) -/

/-- One row of `app.wigle_alpha_v3_networks`: the authoritative API
network metadata consumed by Phase 1. -/
structure ApiNetwork where
  bssid : String
  name : Option String
  encryption : Option String
  channel : Option Int
  bcninterval : Option Int
  trilaterated_lat : Option ℚ
  trilaterated_lon : Option ℚ
  best_cluster_qos : Option Int
  first_seen : Int
  last_seen : Int
  last_update : Option Int
  street_address : Option String
  freenet : Option String
  dhcp : Option String
  paynet : Option String
  comment : Option String
  deriving DecidableEq

/-- One row of `app.wigle_alpha_v3_observations`: an authoritative API
observation consumed by Phase 2.  `obs_time_ms` models
`EXTRACT(EPOCH FROM observation_time) * 1000`. -/
structure ApiObs where
  observation_id : Nat
  bssid : String
  lat : ℚ
  lon : ℚ
  altitude : Option ℚ
  accuracy : Option ℚ
  signal_dbm : Option Int
  obs_time_ms : Int
  deriving DecidableEq

/-- One row of `app.wigle_sqlite_networks_staging` with the API
extension columns. -/
structure StagingNetwork where
  bssid : String
  ssid : Option String
  name : Option String
  encryption : Option String
  frequency : Option Int
  channel : Option Int
  bcninterval : Option Int
  lasttime : Option Int
  first_seen : Option Int
  last_seen : Option Int
  last_update : Option Int
  trilaterated_lat : Option ℚ
  trilaterated_lon : Option ℚ
  best_cluster_qos : Option Int
  street_address : Option String
  freenet : Option String
  dhcp : Option String
  paynet : Option String
  comment : Option String
  api_enriched : Option Bool
  observation_count_api : Option Nat
  data_source_bitmask : Option Int
  merge_timestamp : Option Int
  merge_batch_id : Option String
  deriving DecidableEq

/-- One row of `app.wigle_sqlite_locations_staging` with the API
extension columns (`observation_source`, `api_observation_id`,
`merge_batch_id`). -/
structure StagingObs where
  unified_id : Nat
  bssid : String
  level : Option Int
  lat : ℚ
  lon : ℚ
  altitude : Option ℚ
  accuracy : Option ℚ
  time_ms : Int
  observation_source : String
  api_observation_id : Option Nat
  merge_batch_id : Option String
  deriving DecidableEq

/-- SQL `DATE(to_timestamp(ms / 1000))`: the calendar day (UTC) of an epoch
millisecond value.  SQL integer division truncates toward zero; the day
truncation is a floor. -/
def dayOfMs (ms : Int) : Int := Int.fdiv (Int.tdiv ms 1000) 86400

/-- The staging row's `api_enriched` flag is `FALSE` or `NULL`
(the `WHERE` condition selecting networks still to enrich). -/
def notEnriched (n : StagingNetwork) : Bool :=
  n.api_enriched = some false || n.api_enriched = none

/-- A staging network is touched by Phase 1 when it is not yet enriched
and some API network row has its bssid (the `INNER JOIN` / `UPDATE FROM`
condition). -/
def phase1Matched (apis : List ApiNetwork) (n : StagingNetwork) : Bool :=
  notEnriched n && apis.any (fun api => api.bssid = n.bssid)

/-- The `SET` list of the Phase 1 `UPDATE`: API values overwrite the
staging columns, except `channel` which keeps the staging-derived
`frequency / 5 - 1000` when `frequency` is non-null, and the temporal
bounds which combine the API values with the staging `lasttime`
(`LEAST(api.first_seen, to_timestamp(n.lasttime / 1000))` and
`GREATEST(api.last_seen, to_timestamp(n.lasttime / 1000))`).
`apiObsCount` is the subquery counting API observations for the bssid,
and `now` models `NOW()`. -/
def enrichNetwork (batch_id : String) (now : Int) (apiObsCount : Nat)
    (n : StagingNetwork) (api : ApiNetwork) : StagingNetwork :=
  { n with
    name := api.name
    encryption := api.encryption
    channel := match n.frequency with
      | some f => some (Int.tdiv f 5 - 1000)
      | none => api.channel
    bcninterval := api.bcninterval
    trilaterated_lat := api.trilaterated_lat
    trilaterated_lon := api.trilaterated_lon
    best_cluster_qos := api.best_cluster_qos
    first_seen := some (match n.lasttime with
      | some lt => min api.first_seen (Int.tdiv lt 1000)
      | none => api.first_seen)
    last_seen := some (match n.lasttime with
      | some lt => max api.last_seen (Int.tdiv lt 1000)
      | none => api.last_seen)
    last_update := api.last_update
    street_address := api.street_address
    freenet := api.freenet
    dhcp := api.dhcp
    paynet := api.paynet
    comment := api.comment
    api_enriched := some true
    observation_count_api := some apiObsCount
    data_source_bitmask := some 3
    merge_timestamp := some now
    merge_batch_id := some batch_id }

/-- Function `enrich_network_metadata(conn, batch_id, dry_run)`: Phase 1.  First
the candidate count `COUNT(DISTINCT n.bssid)` over not-yet-enriched
staging networks joined with the API networks; zero means an early
return.  A dry run reports that count without mutating; a real run
issues the `UPDATE ... FROM` and reports its row count.  Returns the
reported count and the staging table after the call. -/
def enrich_network_metadata (apis : List ApiNetwork)
    (apiObsL : List ApiObs) (staging : List StagingNetwork)
    (batch_id : String) (now : Int) (dry_run : Bool) :
    Nat × List StagingNetwork :=
  let count := ((staging.filter (phase1Matched apis)).map
    (fun n => n.bssid)).dedup.length
  if count = 0 then (0, staging)
  else if dry_run then (count, staging)
  else
    let staging2 := staging.map (fun n =>
      if phase1Matched apis n then
        match apis.find? (fun api => api.bssid = n.bssid) with
        | some api =>
            enrichNetwork batch_id now
              ((apiObsL.filter (fun o => o.bssid = n.bssid)).length) n api
        | none => n
      else n)
    ((staging.filter (phase1Matched apis)).length, staging2)

/-- SQL `ABS` on a numeric value. -/
def sqlAbs (q : ℚ) : ℚ := if q < 0 then -q else q

/-- The Phase 2 `LEFT JOIN` condition restricted to locally staged
original data: same bssid, same calendar day, and both coordinates
within `0.0001` degrees. -/
def isDupMatch (a : ApiObs) (s : StagingObs) : Bool :=
  a.bssid = s.bssid &&
  dayOfMs a.obs_time_ms = dayOfMs s.time_ms &&
  sqlAbs (a.lat - s.lat) < 1 / 10000 &&
  sqlAbs (a.lon - s.lon) < 1 / 10000

/-- The staging observations a given API observation joins with: only
rows with `observation_source = 'sqlite'` are considered, and the join
condition is `isDupMatch`. -/
def sqliteMatches (staging : List StagingObs) (a : ApiObs) :
    List StagingObs :=
  (staging.filter (fun s => s.observation_source = "sqlite")).filter
    (fun s => isDupMatch a s)

/-- The result rows of the Phase 2 duplicate-analysis query: a `LEFT
JOIN`, so an API observation with no qualifying staging row yields one
row with a null `duplicate_of`, and one with qualifying rows yields one
row per match. -/
def leftJoinRows (staging : List StagingObs) :
    List ApiObs → List (Nat × Option Nat)
  | [] => []
  | a :: rest =>
      (if (sqliteMatches staging a).isEmpty then
        [(a.observation_id, (none : Option Nat))]
      else
        (sqliteMatches staging a).map
          (fun s => (a.observation_id, some s.unified_id))) ++
      leftJoinRows staging rest

/-- The Python loop over the fetched rows: rows with a non-null
`duplicate_of` append the observation id to `duplicates`, the rest to
`new_observations`.  Returns `(new_observations, duplicates)`. -/
def partitionRows : List (Nat × Option Nat) → List Nat × List Nat
  | [] => ([], [])
  | r :: rest =>
      let p := partitionRows rest
      match r.2 with
      | some _ => (p.1, r.1 :: p.2)
      | none => (r.1 :: p.1, p.2)

/-- The staging row built by the Phase 2 `INSERT ... SELECT` for a new
API observation: provenance `observation_source = 'wigle_api'`, the
back-reference `api_observation_id`, and the merge batch id.  The
serial `unified_id` is modelled as `0`. -/
def toStagingObs (batch_id : String) (a : ApiObs) : StagingObs :=
  { unified_id := 0
    bssid := a.bssid
    level := a.signal_dbm
    lat := a.lat
    lon := a.lon
    altitude := a.altitude
    accuracy := a.accuracy
    time_ms := a.obs_time_ms
    observation_source := "wigle_api"
    api_observation_id := some a.observation_id
    merge_batch_id := some batch_id }

/-- The staging table's conflict key
`(bssid, level, lat, lon, altitude, accuracy, time)` for an existing
row. -/
def StagingObs.fingerprint (s : StagingObs) : ObsFingerprint :=
  ⟨s.bssid, s.level.getD 0, s.lat, s.lon, s.altitude, s.accuracy, s.time_ms⟩

/-- The conflict key of the row the Phase 2 insert would create for an
API observation (`level` is `signal_dbm`, `time` is the epoch
milliseconds of `observation_time`). -/
def ApiObs.insertFingerprint (a : ApiObs) : ObsFingerprint :=
  ⟨a.bssid, a.signal_dbm.getD 0, a.lat, a.lon, a.altitude, a.accuracy,
    a.obs_time_ms⟩

/-- The `INSERT ... ON CONFLICT (bssid, level, lat, lon, altitude,
accuracy, time) DO NOTHING` over the selected new observations: each
candidate row is appended unless its conflict key is already present;
the row count of actually inserted rows is returned. -/
def insertNewObs (batch_id : String) (staging : List StagingObs) :
    List ApiObs → List StagingObs × Nat
  | [] => (staging, 0)
  | a :: rest =>
      if a.insertFingerprint ∈ staging.map StagingObs.fingerprint then
        insertNewObs batch_id staging rest
      else
        let r := insertNewObs batch_id (staging ++ [toStagingObs batch_id a]) rest
        (r.1, r.2 + 1)

/-- Function `merge_observations(conn, batch_id, dry_run)`: Phase 2.  The
duplicate-analysis query feeds the Python partition loop; a dry run
reports `(len(new_observations), len(duplicates))` without mutating,
and a real run inserts the rows selected by the new-observation ids and
reports `(inserted_rowcount, len(duplicates))`.  Returns the reported
counts and the staging observations after the call. -/
def merge_observations (apiObsL : List ApiObs)
    (staging : List StagingObs) (batch_id : String) (dry_run : Bool) :
    (Nat × Nat) × List StagingObs :=
  let p := partitionRows (leftJoinRows staging apiObsL)
  if dry_run then ((p.1.length, p.2.length), staging)
  else
    let cands := apiObsL.filter (fun a => p.1.contains a.observation_id)
    let r := insertNewObs batch_id staging cands
    ((r.2, p.2.length), r.1)

/-- The database as seen by `merge_api_to_staging.py`:
`schema_ready` is the result of `check_schema_extended` (both API
extension columns present). -/
structure MergeStore where
  schema_ready : Bool
  apis : List ApiNetwork
  apiObsL : List ApiObs
  networks : List StagingNetwork
  locations : List StagingObs
  deriving DecidableEq

/-- Function `main()` of `merge_api_to_staging.py`: after connecting, the schema
precondition is checked first; if it fails the process exits with status
`1` before either phase runs.  Otherwise Phase 1 and Phase 2 run and
their counts `(networks_enriched, new_obs, dupes)` are reported.  The
result pairs the exit outcome with the store after the run. -/
def mergeMain (store : MergeStore) (dry_run : Bool) (batch_id : String)
    (now : Int) : Except Nat (Nat × Nat × Nat) × MergeStore :=
  if store.schema_ready = false then (Except.error 1, store)
  else
    let p1 := enrich_network_metadata store.apis store.apiObsL
      store.networks batch_id now dry_run
    let p2 := merge_observations store.apiObsL store.locations batch_id dry_run
    (Except.ok (p1.1, p2.1.1, p2.1.2),
      { store with networks := p1.2, locations := p2.2 })

/-! ## Enrichment queue
(`src/server/pipelines/enrichment/wigle_api_alpha_v3.py`) -/

/-- The `status` column of `app.bssid_enrichment_queue`. -/
inductive QueueStatus where
  | pending
  | processing
  | completed
  | failed
  deriving DecidableEq

/-- One row of `app.bssid_enrichment_queue`. -/
structure QueueItem where
  tag_id : Nat
  bssid : String
  priority : Int
  tagged_at : Int
  status : QueueStatus
  error_message : Option String
  deriving DecidableEq

/-- The per-item body of the `process_enrichment_queue` loop: the item
is first marked `processing` (and committed); then the external fetch
and the import run.  If both succeed the loop only increments its
success counter — the item's status is not updated again.  On any
exception the item is marked `failed` and the error message recorded.
The fetch-and-import step is modelled as a function from the bssid to
either the imported counts or an error message. -/
def processItem (fetchImport : String → Except String (Nat × Nat))
    (item : QueueItem) : QueueItem :=
  let claimed := { item with status := QueueStatus.processing }
  match fetchImport claimed.bssid with
  | Except.ok _ => claimed
  | Except.error e =>
      { claimed with status := QueueStatus.failed, error_message := some e }

/-! ## Network detail import
(`src/pipelines/wigle_api/import_network_detail.py`) -/

/-- One parsed location from the WiGLE network detail response
(`parse_detail_response`): coordinates may be absent. -/
structure DetailLoc where
  bssid : String
  lat : Option ℚ
  lon : Option ℚ
  time : Option Int
  signal : Option Int
  deriving DecidableEq

/-- Python truthiness of a coordinate value: `None` and `0.0` are
falsy, every other number is truthy. -/
def coordTruthy : Option ℚ → Bool
  | none => false
  | some x => x ≠ 0

/-- The `location_values` comprehension of `import_to_database`: keep a
location only `if loc['lat'] and loc['lon']` (skip null island). -/
def location_values (locations : List DetailLoc) : List DetailLoc :=
  locations.filter (fun l => coordTruthy l.lat && coordTruthy l.lon)

/-- The `Valid GPS points` figure printed by `import_to_database`:
`len(location_values)`. -/
def valid_gps_points (locations : List DetailLoc) : Nat :=
  (location_values locations).length

/-! ## Concrete inputs used by counterexamples and witnesses -/

/-- An API observation at `(1, 1)` on day `0`. -/
def apiObsC3 : ApiObs :=
  ⟨1, "AA:BB:CC:DD:EE:01", 1, 1, none, none, some (-60), 0⟩

/-- A staged sqlite observation matching `apiObsC3` (same bssid, same
day, identical coordinates). -/
def stagC3a : StagingObs :=
  ⟨10, "AA:BB:CC:DD:EE:01", some (-60), 1, 1, none, none, 0, "sqlite",
    none, none⟩

/-- A second staged sqlite observation also matching `apiObsC3`
(one second later the same day, identical coordinates). -/
def stagC3b : StagingObs :=
  ⟨11, "AA:BB:CC:DD:EE:01", some (-61), 1, 1, none, none, 1000, "sqlite",
    none, none⟩

/-- An API observation with no qualifying sqlite match. -/
def apiObsC3w : ApiObs :=
  ⟨2, "AA:BB:CC:DD:EE:02", 5, 5, none, none, some (-70), 0⟩

/-- A staged sqlite observation far from `apiObsC3w`. -/
def stagC3w : StagingObs :=
  ⟨12, "AA:BB:CC:DD:EE:02", some (-70), 6, 6, none, none, 0, "sqlite",
    none, none⟩

/-- A staging network whose stored `first_seen` is epoch `0` and whose
`lasttime` is null. -/
def nC4 : StagingNetwork :=
  { bssid := "AA:BB:CC:DD:EE:04", ssid := some "net4", name := none
    encryption := some "[WPA2]", frequency := none, channel := some 6
    bcninterval := none, lasttime := none, first_seen := some 0
    last_seen := some 0, last_update := none, trilaterated_lat := none
    trilaterated_lon := none, best_cluster_qos := none
    street_address := none, freenet := none, dhcp := none, paynet := none
    comment := none, api_enriched := none, observation_count_api := none
    data_source_bitmask := none, merge_timestamp := none
    merge_batch_id := none }

/-- API metadata for `nC4` first seen at epoch `100`. -/
def apiC4 : ApiNetwork :=
  { bssid := "AA:BB:CC:DD:EE:04", name := some "net4-api"
    encryption := some "[WPA3]", channel := some 11, bcninterval := none
    trilaterated_lat := none, trilaterated_lon := none
    best_cluster_qos := none, first_seen := 100, last_seen := 200
    last_update := none, street_address := none, freenet := none
    dhcp := none, paynet := none, comment := none }

/-- A staging network carrying a non-null local `name`. -/
def nC5 : StagingNetwork :=
  { bssid := "AA:BB:CC:DD:EE:05", ssid := some "net5"
    name := some "LocalName", encryption := some "[WPA2]"
    frequency := none, channel := some 1, bcninterval := none
    lasttime := none, first_seen := none, last_seen := none
    last_update := none, trilaterated_lat := none
    trilaterated_lon := none, best_cluster_qos := none
    street_address := none, freenet := none, dhcp := none, paynet := none
    comment := none, api_enriched := none, observation_count_api := none
    data_source_bitmask := none, merge_timestamp := none
    merge_batch_id := none }

/-- API metadata for `nC5` with a null `name`. -/
def apiC5 : ApiNetwork :=
  { bssid := "AA:BB:CC:DD:EE:05", name := none
    encryption := some "[WPA3]", channel := some 11, bcninterval := none
    trilaterated_lat := none, trilaterated_lon := none
    best_cluster_qos := none, first_seen := 50, last_seen := 60
    last_update := none, street_address := none, freenet := none
    dhcp := none, paynet := none, comment := none }

/-- A pending enrichment queue item. -/
def itemC6 : QueueItem :=
  ⟨7, "CA:99:B2:1E:55:13", 1, 0, QueueStatus.pending, none⟩

/-- An API observation classified new by the Phase 2 analysis. -/
def apiObsC7 : ApiObs :=
  ⟨3, "AA:BB:CC:DD:EE:07", 2, 2, none, none, some (-70), 0⟩

/-- A previously merged (`wigle_api`-sourced) staging row whose conflict
key equals the row `apiObsC7` would insert. -/
def stagC7 : StagingObs :=
  ⟨20, "AA:BB:CC:DD:EE:07", some (-70), 2, 2, none, none, 0, "wigle_api",
    some 3, some "earlier_batch"⟩

/-- An API observation used by the preview-equivalence witness. -/
def apiObsC7w : ApiObs :=
  ⟨4, "AA:BB:CC:DD:EE:08", 3, 3, none, none, some (-80), 86400000⟩

/-- A store whose staging schema lacks the API extension columns. -/
def storeC8 : MergeStore :=
  { schema_ready := false, apis := [apiC4], apiObsL := [apiObsC7]
    networks := [nC4], locations := [stagC7] }

/-- A location on the equator: latitude exactly `0`, longitude valid. -/
def equatorC10 : DetailLoc :=
  ⟨"AA:BB:CC:DD:EE:10", some 0, some 5, some 0, some (-60)⟩

/-! ### Gateway lemmas -/

/-- The ingest loop adds the counts of inserted and duplicate records to
the running tallies, and together they cover the batch. -/
theorem ingestLoop_counts {α β : Type} [DecidableEq β] (fp : α → β)
    (obs : List α) (store : List β) (ins dup : Nat) :
    (ingestLoop fp store obs ins dup).2.1 + (ingestLoop fp store obs ins dup).2.2
      = ins + dup + obs.length := by
  induction obs generalizing store ins dup with
  | nil => simp [ingestLoop]
  | cons o rest ih =>
    simp only [ingestLoop, safeInsert]
    by_cases h : fp o ∈ store
    · simp only [if_pos h]
      rw [if_neg (by norm_num)]
      rw [ih]
      simp [List.length_cons]
      omega
    · simp only [if_neg h]
      rw [if_pos (by norm_num)]
      rw [ih]
      simp [List.length_cons]
      omega

/-- Every record processed by the loop has its fingerprint in the final
store, and the initial store is preserved. -/
theorem ingestLoop_mem {α β : Type} [DecidableEq β] (fp : α → β)
    (obs : List α) (store : List β) (ins dup : Nat) :
    (∀ b ∈ store, b ∈ (ingestLoop fp store obs ins dup).1) ∧
    (∀ o ∈ obs, fp o ∈ (ingestLoop fp store obs ins dup).1) := by
  induction obs generalizing store ins dup with
  | nil => simp [ingestLoop]
  | cons o rest ih =>
    simp only [ingestLoop, safeInsert]
    by_cases h : fp o ∈ store
    · simp only [if_pos h]
      rw [if_neg (by norm_num)]
      refine ⟨fun b hb => (ih store ins (dup + 1)).1 b hb, ?_⟩
      intro o₂ ho₂
      rcases List.mem_cons.mp ho₂ with h₂ | h₂
      · subst h₂; exact (ih store ins (dup + 1)).1 _ h
      · exact (ih store ins (dup + 1)).2 o₂ h₂
    · simp only [if_neg h]
      rw [if_pos (by norm_num)]
      refine ⟨fun b hb => (ih (fp o :: store) (ins + 1) dup).1 b (List.mem_cons_of_mem _ hb), ?_⟩
      intro o₂ ho₂
      rcases List.mem_cons.mp ho₂ with h₂ | h₂
      · rw [h₂]
        exact (ih (fp o :: store) (ins + 1) dup).1 _ (List.mem_cons_self _ _)
      · exact (ih (fp o :: store) (ins + 1) dup).2 o₂ h₂

/-- If every record's fingerprint is already in the store, the loop
classifies every record as duplicate: the inserted tally stays put and
the store is unchanged. -/
theorem ingestLoop_all_dup {α β : Type} [DecidableEq β] (fp : α → β)
    (obs : List α) (store : List β) (ins dup : Nat)
    (h : ∀ o ∈ obs, fp o ∈ store) :
    (ingestLoop fp store obs ins dup).2.1 = ins ∧
    (ingestLoop fp store obs ins dup).1 = store := by
  induction obs generalizing store ins dup with
  | nil => simp [ingestLoop]
  | cons o rest ih =>
    have ho : fp o ∈ store := h o (List.mem_cons_self _ _)
    simp only [ingestLoop, safeInsert, if_pos ho]
    rw [if_neg (by norm_num)]
    exact ih store ins (dup + 1) (fun o₂ h₂ => h o₂ (List.mem_cons_of_mem _ h₂))

/-- Claim C1: for every batch passed to the Gateway's batch insert, the
returned statistics satisfy `inserted + duplicates = total`, and the
returned duplicate rate equals `duplicates / total * 100`, with rate `0`
when `total = 0`. -/
theorem C1_batch_insert_stats (store : List ObsFingerprint)
    (observations : List WigleApiRecord) :
    ((batch_insert_wigle_api_observations store observations).1.inserted +
      (batch_insert_wigle_api_observations store observations).1.duplicates =
      (batch_insert_wigle_api_observations store observations).1.total) ∧
    ((batch_insert_wigle_api_observations store observations).1.duplicate_rate =
      if (batch_insert_wigle_api_observations store observations).1.total = 0 then 0
      else ((batch_insert_wigle_api_observations store observations).1.duplicates : ℚ) /
        ((batch_insert_wigle_api_observations store observations).1.total : ℚ) * 100) := by
  by_cases hobs : observations = []
  · subst hobs
    simp [batch_insert_wigle_api_observations, SafeIngestStats.duplicate_rate]
  · have hlen : observations.length ≠ 0 := fun h => hobs (List.length_eq_zero.mp h)
    simp only [batch_insert_wigle_api_observations, if_neg hobs]
    constructor
    · have := ingestLoop_counts WigleApiRecord.fingerprint observations store 0 0
      simpa using this
    · simp only [SafeIngestStats.duplicate_rate]
      rw [if_pos (Nat.pos_of_ne_zero hlen), if_neg hlen]

/-- Claim C2: inserting the identical batch a second time, starting from
the store state left by the first run, yields `inserted = 0` on the
second run: every record's fingerprint already exists, so each record is
classified duplicate (`duplicates = total`) and the store is not changed
by the second run. -/
theorem C2_rerun_inserted_zero (store : List ObsFingerprint)
    (observations : List WigleApiRecord) :
    ((batch_insert_wigle_api_observations
        (batch_insert_wigle_api_observations store observations).2.1
        observations).1.inserted = 0) ∧
    ((batch_insert_wigle_api_observations
        (batch_insert_wigle_api_observations store observations).2.1
        observations).1.duplicates =
      (batch_insert_wigle_api_observations
        (batch_insert_wigle_api_observations store observations).2.1
        observations).1.total) ∧
    ((batch_insert_wigle_api_observations
        (batch_insert_wigle_api_observations store observations).2.1
        observations).2.1 =
      (batch_insert_wigle_api_observations store observations).2.1) := by
  by_cases hobs : observations = []
  · subst hobs
    simp [batch_insert_wigle_api_observations]
  · have hstore : (batch_insert_wigle_api_observations store observations).2.1 =
        (ingestLoop WigleApiRecord.fingerprint store observations 0 0).1 := by
      simp [batch_insert_wigle_api_observations, if_neg hobs]
    have hall : ∀ o ∈ observations, WigleApiRecord.fingerprint o ∈
        (batch_insert_wigle_api_observations store observations).2.1 := by
      rw [hstore]
      exact (ingestLoop_mem WigleApiRecord.fingerprint observations store 0 0).2
    have hdup := ingestLoop_all_dup WigleApiRecord.fingerprint observations
      (batch_insert_wigle_api_observations store observations).2.1 0 0 hall
    have hcnt := ingestLoop_counts WigleApiRecord.fingerprint observations
      (batch_insert_wigle_api_observations store observations).2.1 0 0
    simp only [batch_insert_wigle_api_observations, if_neg hobs] at hdup hcnt ⊢
    refine ⟨hdup.1, ?_, hdup.2⟩
    simp only [hdup.1] at hcnt ⊢
    omega

/-- Claim C6 (code bug): for a claimed queue item whose external fetch
and re-import both succeed, the loop body leaves the item's status at
`processing` — it never transitions to `completed`, contradicting the
specified `pending → processing → completed` success path.  The failure
path does behave as specified: the item is marked `failed` with its
error message recorded. -/
theorem C6_success_left_processing :
    ((processItem (fun _ => Except.ok (1, 1)) itemC6).status =
        QueueStatus.processing ∧
      (processItem (fun _ => Except.ok (1, 1)) itemC6).status ≠
        QueueStatus.completed) ∧
    ((processItem (fun _ => Except.error "HTTP 429") itemC6).status =
        QueueStatus.failed ∧
      (processItem (fun _ => Except.error "HTTP 429") itemC6).error_message =
        some "HTTP 429") := by
  refine ⟨⟨rfl, ?_⟩, rfl, rfl⟩
  intro h
  simp [processItem, itemC6] at h

/-- Claim C8: if the schema-readiness precondition does not hold, the
merge exits with the distinguished non-zero status `1` before any
mutation of the store: no enrichment and no observation insert happens
in that run. -/
theorem C8_precondition_aborts_before_mutation (store : MergeStore)
    (dry_run : Bool) (batch_id : String) (now : Int)
    (h : store.schema_ready = false) :
    mergeMain store dry_run batch_id now = (Except.error 1, store) := by
  simp [mergeMain, h]

/-- Witness for C8 at the concrete store `storeC8`. -/
theorem C8_precondition_witness :
    storeC8.schema_ready = false ∧
    mergeMain storeC8 false "wigle_api_merge_20260101_000000" 0 =
      (Except.error 1, storeC8) :=
  ⟨rfl, C8_precondition_aborts_before_mutation storeC8 false
    "wigle_api_merge_20260101_000000" 0 rfl⟩

/-- Claim C10: the network-detail import keeps a location exactly when
both coordinates are present and non-zero (numeric truthiness), so an
observation lying exactly on the equator is silently dropped, and the
reported valid-GPS-points count equals the number of locations with
both coordinates present and non-zero. -/
theorem C10_zero_coordinate_filter (locations : List DetailLoc) :
    (∀ l, l ∈ location_values locations ↔
      l ∈ locations ∧ (∃ a, l.lat = some a ∧ a ≠ 0) ∧
        (∃ b, l.lon = some b ∧ b ≠ 0)) ∧
    valid_gps_points locations =
      locations.countP
        (fun l => l.lat.any (fun a => a ≠ 0) && l.lon.any (fun b => b ≠ 0)) ∧
    equatorC10 ∉ location_values [equatorC10] := by
  refine ⟨?_, ?_, by decide⟩
  · intro l
    simp only [location_values, List.mem_filter, Bool.and_eq_true]
    constructor
    · rintro ⟨hmem, hlat, hlon⟩
      refine ⟨hmem, ?_, ?_⟩
      · cases hl : l.lat with
        | none => rw [hl] at hlat; simp [coordTruthy] at hlat
        | some a =>
            rw [hl] at hlat
            simp only [coordTruthy, decide_eq_true_eq] at hlat
            exact ⟨a, rfl, hlat⟩
      · cases hl : l.lon with
        | none => rw [hl] at hlon; simp [coordTruthy] at hlon
        | some b =>
            rw [hl] at hlon
            simp only [coordTruthy, decide_eq_true_eq] at hlon
            exact ⟨b, rfl, hlon⟩
    · rintro ⟨hmem, ⟨a, ha, ha0⟩, ⟨b, hb, hb0⟩⟩
      exact ⟨hmem, by simp [ha, coordTruthy, ha0], by simp [hb, coordTruthy, hb0]⟩
  · rw [valid_gps_points, location_values, ← List.countP_eq_length_filter]
    apply List.countP_congr
    intro l _
    cases hl : l.lat <;> cases hl2 : l.lon <;>
      simp [coordTruthy, Option.any]

/-- Counterexample to claim C3 as stated: the authoritative observation
`apiObsC3` has two qualifying local matches, so the analysis emits two
join rows for it and the loop records two duplicate verdicts for the
same observation — not exactly one verdict. -/
theorem C3_counterexample :
    ¬ ((partitionRows (leftJoinRows [stagC3a, stagC3b] [apiObsC3])).1.count
        apiObsC3.observation_id +
      (partitionRows (leftJoinRows [stagC3a, stagC3b] [apiObsC3])).2.count
        apiObsC3.observation_id = 1) := by
  have ha : isDupMatch apiObsC3 stagC3a = true := by
    simp only [isDupMatch, apiObsC3, stagC3a, dayOfMs, sqlAbs]
    norm_num
  have hb : isDupMatch apiObsC3 stagC3b = true := by
    simp only [isDupMatch, apiObsC3, stagC3b, dayOfMs, sqlAbs]
    norm_num
    decide
  have hsa : stagC3a.observation_source = "sqlite" := rfl
  have hsb : stagC3b.observation_source = "sqlite" := rfl
  have hm : sqliteMatches [stagC3a, stagC3b] apiObsC3 = [stagC3a, stagC3b] := by
    simp [sqliteMatches, List.filter_cons, hsa, hsb, ha, hb]
  simp only [leftJoinRows, hm, List.isEmpty_cons, List.map_cons,
    List.map_nil, List.nil_append, List.append_nil, Bool.false_eq_true,
    if_false, partitionRows, List.count_cons, List.count_nil]
  decide

/-- Counterexample to claim C4 as stated: the entity `nC4` enters the
enrichment pass with stored `first_seen = 0`, yet the pass sets
`first_seen` to the incoming value `100` — not to the minimum of the
existing and incoming first-seen values — so `first_seen` increased
across the pass. -/
theorem C4_counterexample :
    ((enrich_network_metadata [apiC4] [] [nC4] "b" 0 false).2.map
        StagingNetwork.first_seen = [some 100]) ∧
    nC4.first_seen = some 0 ∧ min (0 : Int) apiC4.first_seen = 0 ∧
    ¬ ((enrich_network_metadata [apiC4] [] [nC4] "b" 0 false).2.map
        StagingNetwork.first_seen = [some 0]) := by
  refine ⟨by decide, by decide, ?_, by decide⟩
  have h : apiC4.first_seen = 100 := rfl
  rw [h]
  omega

/-- Counterexample to claim C5 as stated: the entity `nC5` holds the
non-null local `name = "LocalName"`, and `name` is not one of the
fields designated authoritative, yet Phase 1 replaces it with the
incoming (null) API value. -/
theorem C5_counterexample :
    ((enrich_network_metadata [apiC5] [] [nC5] "b" 0 false).2.map
        StagingNetwork.name ≠ [nC5.name]) ∧
    nC5.name = some "LocalName" := by
  refine ⟨?_, rfl⟩
  decide

/-- Counterexample to claim C7 as stated: a dry run of Phase 2 on the
store holding the previously merged row `stagC7` reports one new
observation, while the real run on the same unchanged store inserts
none (the insert hits the staging conflict key), so preview and real
counts differ. -/
theorem C7_counterexample :
    (merge_observations [apiObsC7] [stagC7] "b" true).1 ≠
    (merge_observations [apiObsC7] [stagC7] "b" false).1 := by
  decide

/-- Claim C9: for the empty input list, every Gateway batch-insert
operation returns statistics with `total = inserted = duplicates = 0`
and duplicate rate `0`, and performs no store access at all: no
connection is opened and the store is untouched. -/
theorem C9_empty_batch_no_store_access
    (storeK : List KmlFingerprint) (storeW storeL : List ObsFingerprint) :
    batch_insert_kml_observations storeK [] = (⟨0, 0, 0⟩, storeK, 0) ∧
    batch_insert_wigle_api_observations storeW [] = (⟨0, 0, 0⟩, storeW, 0) ∧
    batch_insert_legacy_observations storeL [] = (⟨0, 0, 0⟩, storeL, 0) ∧
    (⟨0, 0, 0⟩ : SafeIngestStats).duplicate_rate = 0 := by
  refine ⟨rfl, rfl, rfl, ?_⟩
  simp [SafeIngestStats.duplicate_rate]

/-! ### Phase 2 classification lemmas -/

/-- The partition loop distributes over list append. -/
theorem partitionRows_append (xs ys : List (Nat × Option Nat)) :
    partitionRows (xs ++ ys) =
      ((partitionRows xs).1 ++ (partitionRows ys).1,
        (partitionRows xs).2 ++ (partitionRows ys).2) := by
  induction xs with
  | nil => simp [partitionRows]
  | cons r rest ih =>
    cases hr : r.2 with
    | none => simp [partitionRows, hr, ih]
    | some v => simp [partitionRows, hr, ih]

/-- Partitioning a block of duplicate rows for one observation puts one
copy of its id in the duplicate list per matching staging row. -/
theorem partitionRows_dup_block (i : Nat) (ms : List StagingObs) :
    partitionRows (ms.map (fun s => (i, some s.unified_id))) =
      ([], ms.map (fun _ => i)) := by
  induction ms with
  | nil => simp [partitionRows]
  | cons s rest ih => simp [partitionRows, ih]

/-- The new-observation list produced by the analysis is exactly the
ids of the API observations with no qualifying sqlite match, in input
order. -/
theorem partition_new_ids (staging : List StagingObs) (l : List ApiObs) :
    (partitionRows (leftJoinRows staging l)).1 =
      (l.filter (fun a => (sqliteMatches staging a).isEmpty)).map
        (fun a => a.observation_id) := by
  induction l with
  | nil => simp [leftJoinRows, partitionRows]
  | cons a rest ih =>
    by_cases h : (sqliteMatches staging a).isEmpty = true
    · rw [leftJoinRows, if_pos h, partitionRows_append]
      simp [partitionRows, ih, List.filter_cons, h]
    · rw [leftJoinRows, if_neg h, partitionRows_append,
        partitionRows_dup_block]
      simp [ih, List.filter_cons, h]

/-- Counting the id a constant-map block repeats. -/
theorem count_map_const_self (i : Nat) (ms : List StagingObs) :
    (ms.map (fun _ => i)).count i = ms.length := by
  induction ms with
  | nil => simp
  | cons s rest ih => simp [List.count_cons, ih]

/-- Counting a different id in a constant-map block. -/
theorem count_map_const_ne (i j : Nat) (hij : i ≠ j)
    (ms : List StagingObs) : (ms.map (fun _ => j)).count i = 0 := by
  apply List.count_eq_zero.mpr
  intro hmem
  rcases List.mem_map.mp hmem with ⟨s, _, hs⟩
  exact hij hs.symm

/-- An id outside the batch is never given a verdict. -/
theorem partition_count_zero (staging : List StagingObs) (l : List ApiObs)
    (i : Nat) (hi : i ∉ l.map (fun x => x.observation_id)) :
    (partitionRows (leftJoinRows staging l)).1.count i = 0 ∧
    (partitionRows (leftJoinRows staging l)).2.count i = 0 := by
  induction l with
  | nil => simp [leftJoinRows, partitionRows]
  | cons a rest ih =>
    have hia : i ≠ a.observation_id := by
      intro h; exact hi (by simp [h])
    have hirest : i ∉ rest.map (fun x => x.observation_id) := by
      intro h; exact hi (by simp [h])
    have ihr := ih hirest
    by_cases h : (sqliteMatches staging a).isEmpty = true
    · rw [leftJoinRows, if_pos h, partitionRows_append]
      simp [partitionRows, List.count_cons, ihr.1, ihr.2, hia]
    · rw [leftJoinRows, if_neg h, partitionRows_append,
        partitionRows_dup_block]
      simp [List.count_append, ihr.1, ihr.2, List.count_replicate, hia,
        Ne.symm hia]

/-- Verdict multiplicities of the Phase 2 analysis: an observation gets
one duplicate-list entry per qualifying sqlite match, and one
new-list entry exactly when it has no qualifying match. -/
theorem partition_verdict_counts (apiObsL : List ApiObs)
    (staging : List StagingObs) (a : ApiObs) (ha : a ∈ apiObsL)
    (hids : (apiObsL.map (fun x => x.observation_id)).Nodup) :
    (partitionRows (leftJoinRows staging apiObsL)).2.count a.observation_id
      = (sqliteMatches staging a).length ∧
    (partitionRows (leftJoinRows staging apiObsL)).1.count a.observation_id
      = (if (sqliteMatches staging a).isEmpty then 1 else 0) := by
  induction apiObsL with
  | nil => cases ha
  | cons x rest ih =>
    rw [List.map_cons, List.nodup_cons] at hids
    obtain ⟨hxrest, hrest⟩ := hids
    rcases List.mem_cons.mp ha with hax | hax
    · subst hax
      have hz := partition_count_zero staging rest a.observation_id hxrest
      by_cases h : (sqliteMatches staging a).isEmpty = true
      · rw [leftJoinRows, if_pos h, partitionRows_append]
        have hempty : sqliteMatches staging a = [] := List.isEmpty_iff.mp h
        simp [partitionRows, List.count_cons, List.count_append,
          hz.1, hz.2, hempty]
      · rw [leftJoinRows, if_neg h, partitionRows_append,
          partitionRows_dup_block]
        have hne2 : ¬ sqliteMatches staging a = [] := by
          simpa [List.isEmpty_iff] using h
        refine ⟨?_, by simp [partitionRows, hz.1, hne2]⟩
        simp [List.count_append, hz.2, List.count_replicate]
    · have hne : a.observation_id ≠ x.observation_id := by
        intro h
        apply hxrest
        rw [← h]
        exact List.mem_map.mpr ⟨a, hax, rfl⟩
      have ihr := ih hax hrest
      by_cases h : (sqliteMatches staging x).isEmpty = true
      · rw [leftJoinRows, if_pos h, partitionRows_append]
        simp [partitionRows, List.count_cons, List.count_append,
          ihr.1, ihr.2, hne]
      · rw [leftJoinRows, if_neg h, partitionRows_append,
          partitionRows_dup_block]
        refine ⟨?_, by simp [partitionRows, ihr.2]⟩
        simp [List.count_append, ihr.1, List.count_replicate, hne,
          Ne.symm hne]

/-! ### Phase 1 lemmas -/

/-- An enriched row is flagged `api_enriched = TRUE`, so it no longer
qualifies for enrichment. -/
theorem phase1Matched_enrichNetwork (apis : List ApiNetwork)
    (bid : String) (now : Int) (cnt : Nat) (n : StagingNetwork)
    (api : ApiNetwork) :
    phase1Matched apis (enrichNetwork bid now cnt n api) = false := by
  simp [phase1Matched, notEnriched, enrichNetwork]

/-- After a real Phase 1 run, no staging network still qualifies for
enrichment: enriched rows are flagged, and the remaining rows already
failed the join or the flag test. -/
theorem enrich_pass_no_candidates (apis : List ApiNetwork)
    (apiObsL : List ApiObs) (staging : List StagingNetwork)
    (b : String) (now : Int) :
    ∀ n ∈ (enrich_network_metadata apis apiObsL staging b now false).2,
      phase1Matched apis n = false := by
  intro n hn
  rw [enrich_network_metadata] at hn
  by_cases hc :
      ((staging.filter (phase1Matched apis)).map (fun m => m.bssid)).dedup.length
        = 0
  · rw [if_pos hc] at hn
    have hfil : staging.filter (phase1Matched apis) = [] := by
      have hd := List.length_eq_zero.mp hc
      have hmap := (List.dedup_eq_nil _).mp hd
      exact List.map_eq_nil_iff.mp hmap
    have := List.filter_eq_nil_iff.mp hfil n hn
    simpa using this
  · rw [if_neg hc] at hn
    simp only [Bool.false_eq_true, if_false] at hn
    rcases List.mem_map.mp hn with ⟨m, hm, rfl⟩
    by_cases hmatch : phase1Matched apis m = true
    · rw [if_pos hmatch]
      cases hfind : apis.find? (fun api => api.bssid = m.bssid) with
      | some api => exact phase1Matched_enrichNetwork apis b now _ m api
      | none =>
          exfalso
          have hnone := List.find?_eq_none.mp hfind
          have hany : apis.any (fun api => api.bssid = m.bssid) = true := by
            have := hmatch
            simp only [phase1Matched, Bool.and_eq_true] at this
            exact this.2
          rcases List.any_eq_true.mp hany with ⟨api, hapi, heq⟩
          exact absurd heq (by simpa using hnone api hapi)
    · rw [if_neg hmatch]
      simpa using hmatch

/-- Claim C4, amended: Phase 1 sets `first_seen` to the minimum of the
incoming API first-seen and the staging row's own `lasttime` (converted
from epoch milliseconds), falling back to the API value when `lasttime`
is null — the previously stored `first_seen` column is not consulted —
and symmetrically `last_seen` to the maximum with the same `lasttime`;
and a second real enrichment pass leaves the staging networks unchanged
(enriched entities are skipped), so the temporal bounds are unchanged —
in particular not widened and not narrowed — across repeated passes. -/
theorem C4_amended (apis : List ApiNetwork) (apiObsL : List ApiObs)
    (staging : List StagingNetwork) (b1 b2 : String) (now1 now2 : Int) :
    ((enrich_network_metadata apis apiObsL
        (enrich_network_metadata apis apiObsL staging b1 now1 false).2
        b2 now2 false).2 =
      (enrich_network_metadata apis apiObsL staging b1 now1 false).2) ∧
    (∀ bid now cnt n api,
      (enrichNetwork bid now cnt n api).first_seen =
        some (match n.lasttime with
          | some lt => min api.first_seen (Int.tdiv lt 1000)
          | none => api.first_seen) ∧
      (enrichNetwork bid now cnt n api).last_seen =
        some (match n.lasttime with
          | some lt => max api.last_seen (Int.tdiv lt 1000)
          | none => api.last_seen)) := by
  constructor
  · have hall := enrich_pass_no_candidates apis apiObsL staging b1 now1
    have hfil : (enrich_network_metadata apis apiObsL staging b1 now1
        false).2.filter (phase1Matched apis) = [] :=
      List.filter_eq_nil_iff.mpr (fun n hn => by simp [hall n hn])
    rw [enrich_network_metadata, hfil]
    simp
  · intro bid now cnt n api
    exact ⟨rfl, rfl⟩

/-- Claim C5, amended: Phase 1 field overlay is unconditional for the
API metadata fields — `name`, `encryption`, `bcninterval`, the
trilaterated coordinates, `best_cluster_qos`, `last_update`,
`street_address`, `freenet`, `dhcp`, `paynet` and `comment` are all
replaced by the incoming API values even when a non-null local value is
stored — and only `channel` prefers locally derived data
(`frequency / 5 - 1000` when `frequency` is non-null, the API channel
otherwise), while `bssid`, `ssid`, `frequency` and `lasttime` are left
untouched. -/
theorem C5_amended (bid : String) (now : Int) (cnt : Nat)
    (n : StagingNetwork) (api : ApiNetwork) :
    (enrichNetwork bid now cnt n api).name = api.name ∧
    (enrichNetwork bid now cnt n api).encryption = api.encryption ∧
    (enrichNetwork bid now cnt n api).bcninterval = api.bcninterval ∧
    (enrichNetwork bid now cnt n api).trilaterated_lat =
      api.trilaterated_lat ∧
    (enrichNetwork bid now cnt n api).trilaterated_lon =
      api.trilaterated_lon ∧
    (enrichNetwork bid now cnt n api).best_cluster_qos =
      api.best_cluster_qos ∧
    (enrichNetwork bid now cnt n api).last_update = api.last_update ∧
    (enrichNetwork bid now cnt n api).street_address =
      api.street_address ∧
    (enrichNetwork bid now cnt n api).freenet = api.freenet ∧
    (enrichNetwork bid now cnt n api).dhcp = api.dhcp ∧
    (enrichNetwork bid now cnt n api).paynet = api.paynet ∧
    (enrichNetwork bid now cnt n api).comment = api.comment ∧
    (enrichNetwork bid now cnt n api).channel =
      (match n.frequency with
        | some f => some (Int.tdiv f 5 - 1000)
        | none => api.channel) ∧
    (enrichNetwork bid now cnt n api).api_enriched = some true ∧
    (enrichNetwork bid now cnt n api).merge_batch_id = some bid ∧
    (enrichNetwork bid now cnt n api).bssid = n.bssid ∧
    (enrichNetwork bid now cnt n api).ssid = n.ssid ∧
    (enrichNetwork bid now cnt n api).frequency = n.frequency ∧
    (enrichNetwork bid now cnt n api).lasttime = n.lasttime :=
  ⟨rfl, rfl, rfl, rfl, rfl, rfl, rfl, rfl, rfl, rfl, rfl, rfl, rfl, rfl,
    rfl, rfl, rfl, rfl, rfl⟩

/-! ### Preview equivalence lemmas -/

/-- The conflict key of a freshly inserted Phase 2 row is the insert
key of its API observation. -/
theorem fingerprint_toStagingObs (b : String) (a : ApiObs) :
    (toStagingObs b a).fingerprint = a.insertFingerprint := rfl

/-- When the candidate rows have pairwise distinct conflict keys, none
already present, the `ON CONFLICT DO NOTHING` insert inserts every
candidate. -/
theorem insertNewObs_all_fresh (b : String) (cands : List ApiObs)
    (staging : List StagingObs)
    (hnd : (cands.map ApiObs.insertFingerprint).Nodup)
    (hfresh : ∀ a ∈ cands,
      a.insertFingerprint ∉ staging.map StagingObs.fingerprint) :
    (insertNewObs b staging cands).2 = cands.length := by
  induction cands generalizing staging with
  | nil => simp [insertNewObs]
  | cons a rest ih =>
    rw [List.map_cons, List.nodup_cons] at hnd
    have hfa := hfresh a (List.mem_cons_self _ _)
    rw [insertNewObs, if_neg hfa]
    show (insertNewObs b (staging ++ [toStagingObs b a]) rest).2 + 1 =
      (a :: rest).length
    have hrest : ∀ x ∈ rest, x.insertFingerprint ∉
        (staging ++ [toStagingObs b a]).map StagingObs.fingerprint := by
      intro x hx hmem
      rw [List.map_append] at hmem
      rcases List.mem_append.mp hmem with hmem | hmem
      · exact hfresh x (List.mem_cons_of_mem _ hx) hmem
      · simp only [List.map_cons, List.map_nil, List.mem_singleton,
          fingerprint_toStagingObs] at hmem
        exact hnd.1 (hmem ▸ List.mem_map.mpr ⟨x, hx, rfl⟩)
    rw [ih (staging ++ [toStagingObs b a]) hnd.2 hrest]
    simp

/-- With distinct observation ids, selecting the rows whose id landed in
the new-observation list selects exactly the observations with no
qualifying sqlite match. -/
theorem cands_eq_filter (apiObsL : List ApiObs)
    (staging : List StagingObs)
    (h2 : (apiObsL.map (fun a => a.observation_id)).Nodup) :
    apiObsL.filter (fun a =>
        (partitionRows (leftJoinRows staging apiObsL)).1.contains
          a.observation_id) =
      apiObsL.filter (fun a => (sqliteMatches staging a).isEmpty) := by
  rw [partition_new_ids]
  apply List.filter_congr
  intro a hmem
  by_cases hE : (sqliteMatches staging a).isEmpty = true
  · rw [hE]
    have : a.observation_id ∈
        (apiObsL.filter (fun x => (sqliteMatches staging x).isEmpty)).map
          (fun x => x.observation_id) :=
      List.mem_map.mpr ⟨a, List.mem_filter.mpr ⟨hmem, hE⟩, rfl⟩
    simpa [List.elem_iff] using this
  · rw [Bool.eq_false_iff.mpr hE]
    rw [Bool.eq_false_iff]
    intro hcon
    have hmem2 : a.observation_id ∈
        (apiObsL.filter (fun x => (sqliteMatches staging x).isEmpty)).map
          (fun x => x.observation_id) := by
      simpa [List.elem_iff] using hcon
    rcases List.mem_map.mp hmem2 with ⟨x, hx, hxid⟩
    have hxl : x ∈ apiObsL := (List.mem_filter.mp hx).1
    have : x = a := List.inj_on_of_nodup_map h2 hxl hmem hxid
    rw [this] at hx
    exact hE (List.mem_filter.mp hx).2

/-- Claim C7, amended: a preview (dry) run never mutates the store, and
it returns the Phase 2 duplicates-skipped count a real run would
return; the remaining counts also agree whenever (a) the staging
networks matched by Phase 1 carry pairwise distinct bssids (the dry run
counts distinct bssids, the real run counts updated rows), and (b) the
observations classified new have pairwise distinct conflict keys, none
already present in the staging table (the dry run counts classified-new
observations, the real run counts rows actually inserted after `ON
CONFLICT DO NOTHING`) — without (b), a real run can insert fewer rows
than the preview predicted, as `C7_counterexample` shows. -/
theorem C7_amended (apis : List ApiNetwork) (apiObsL : List ApiObs)
    (networks : List StagingNetwork) (staging : List StagingObs)
    (b : String) (now : Int)
    (h1 : ((networks.filter (phase1Matched apis)).map
      (fun n => n.bssid)).Nodup)
    (h2 : (apiObsL.map (fun a => a.observation_id)).Nodup)
    (h3 : ((apiObsL.filter (fun a => (sqliteMatches staging a).isEmpty)).map
      ApiObs.insertFingerprint).Nodup)
    (h4 : ∀ a ∈ apiObsL.filter (fun a => (sqliteMatches staging a).isEmpty),
      a.insertFingerprint ∉ staging.map StagingObs.fingerprint) :
    ((enrich_network_metadata apis apiObsL networks b now true).1 =
      (enrich_network_metadata apis apiObsL networks b now false).1) ∧
    ((enrich_network_metadata apis apiObsL networks b now true).2 =
      networks) ∧
    ((merge_observations apiObsL staging b true).1 =
      (merge_observations apiObsL staging b false).1) ∧
    ((merge_observations apiObsL staging b true).2 = staging) := by
  have hded : ((networks.filter (phase1Matched apis)).map
      (fun n => n.bssid)).dedup =
      (networks.filter (phase1Matched apis)).map (fun n => n.bssid) :=
    List.dedup_eq_self.mpr h1
  refine ⟨?_, ?_, ?_, ?_⟩
  · rw [enrich_network_metadata, enrich_network_metadata, hded]
    by_cases hc : ((networks.filter (phase1Matched apis)).map
        (fun n => n.bssid)).length = 0
    · rw [if_pos hc, if_pos hc]
    · rw [if_neg hc, if_neg hc]
      simp [List.length_map]
  · rw [enrich_network_metadata]
    by_cases hc : ((networks.filter (phase1Matched apis)).map
        (fun n => n.bssid)).dedup.length = 0
    · rw [if_pos hc]
    · rw [if_neg hc]
      rfl
  · simp only [merge_observations, reduceIte]
    rw [cands_eq_filter apiObsL staging h2,
      insertNewObs_all_fresh b _ staging h3 h4, partition_new_ids]
    simp [List.length_map]
  · rfl

/-- Witness for the amended C7: one network to enrich and one genuinely
new observation over an empty staging table — preview and real counts
agree. -/
theorem C7_amended_witness :
    ((([nC4].filter (phase1Matched [apiC4])).map (fun n => n.bssid)).Nodup ∧
      (([apiObsC7w].map (fun a => a.observation_id)).Nodup) ∧
      ((([apiObsC7w].filter (fun a =>
          (sqliteMatches ([] : List StagingObs) a).isEmpty)).map
        ApiObs.insertFingerprint).Nodup) ∧
      (∀ a ∈ [apiObsC7w].filter (fun a =>
          (sqliteMatches ([] : List StagingObs) a).isEmpty),
        a.insertFingerprint ∉
          ([] : List StagingObs).map StagingObs.fingerprint)) ∧
    ((enrich_network_metadata [apiC4] [apiObsC7w] [nC4] "b" 0 true).1 =
      (enrich_network_metadata [apiC4] [apiObsC7w] [nC4] "b" 0 false).1) ∧
    ((merge_observations [apiObsC7w] [] "b" true).1 =
      (merge_observations [apiObsC7w] [] "b" false).1) :=
  ⟨⟨by decide, by decide, by decide, by decide⟩,
    (C7_amended [apiC4] [apiObsC7w] [nC4] [] "b" 0 (by decide) (by decide)
      (by decide) (by decide)).1,
    (C7_amended [apiC4] [apiObsC7w] [nC4] [] "b" 0 (by decide) (by decide)
      (by decide) (by decide)).2.2.1⟩

/-! ### Phase 2 insertion lemmas -/

/-- The `ON CONFLICT DO NOTHING` insert only ever appends rows, and
every appended row is the staging row built from one of the candidate
API observations. -/
theorem insertNewObs_shape (b : String) (l : List ApiObs)
    (staging : List StagingObs) :
    ∃ tail, (insertNewObs b staging l).1 = staging ++ tail ∧
      ∀ r ∈ tail, ∃ x ∈ l, r = toStagingObs b x := by
  induction l generalizing staging with
  | nil => exact ⟨[], by simp [insertNewObs], by simp⟩
  | cons a rest ih =>
    rw [insertNewObs]
    by_cases h : a.insertFingerprint ∈ staging.map StagingObs.fingerprint
    · rw [if_pos h]
      rcases ih staging with ⟨tail, ht, hr⟩
      refine ⟨tail, ht, fun r hrm => ?_⟩
      rcases hr r hrm with ⟨x, hx, hrx⟩
      exact ⟨x, List.mem_cons_of_mem _ hx, hrx⟩
    · rw [if_neg h]
      show ∃ tail,
        (insertNewObs b (staging ++ [toStagingObs b a]) rest).1 =
          staging ++ tail ∧ ∀ r ∈ tail, ∃ x ∈ a :: rest, r = toStagingObs b x
      rcases ih (staging ++ [toStagingObs b a]) with ⟨tail, ht, hr⟩
      refine ⟨toStagingObs b a :: tail, ?_, ?_⟩
      · rw [ht]
        simp
      · intro r hrm
        rcases List.mem_cons.mp hrm with h2 | h2
        · exact ⟨a, List.mem_cons_self _ _, h2⟩
        · rcases hr r h2 with ⟨x, hx, hrx⟩
          exact ⟨x, List.mem_cons_of_mem _ hx, hrx⟩

/-- After the `ON CONFLICT DO NOTHING` insert, every candidate's
conflict key is present in the table: a fresh key was appended, a
conflicting key was already there — the at-most-once guarantee. -/
theorem insertNewObs_key_present (b : String) (l : List ApiObs)
    (staging : List StagingObs) (a : ApiObs) (ha : a ∈ l) :
    a.insertFingerprint ∈
      ((insertNewObs b staging l).1).map StagingObs.fingerprint := by
  induction l generalizing staging with
  | nil => cases ha
  | cons x rest ih =>
    rw [insertNewObs]
    by_cases h : x.insertFingerprint ∈ staging.map StagingObs.fingerprint
    · rw [if_pos h]
      rcases List.mem_cons.mp ha with h2 | h2
      · rcases insertNewObs_shape b rest staging with ⟨tail, ht, _⟩
        rw [ht, List.map_append]
        refine List.mem_append.mpr (Or.inl ?_)
        rw [h2]
        exact h
      · exact ih staging h2
    · rw [if_neg h]
      show a.insertFingerprint ∈
        ((insertNewObs b (staging ++ [toStagingObs b x]) rest).1).map
          StagingObs.fingerprint
      rcases List.mem_cons.mp ha with h2 | h2
      · rcases insertNewObs_shape b rest (staging ++ [toStagingObs b x])
          with ⟨tail, ht, _⟩
        rw [ht, List.map_append]
        refine List.mem_append.mpr (Or.inl ?_)
        rw [List.map_append]
        refine List.mem_append.mpr (Or.inr ?_)
        rw [h2]
        simp [fingerprint_toStagingObs]
      · exact ih (staging ++ [toStagingObs b x]) h2

/-- Claim C3, amended: in Phase 2 an authoritative observation is
classified duplicate exactly when some `sqlite`-sourced local
observation exists for the same entity, the same calendar day, and with
both coordinates within 0.0001°, and classified new otherwise and
handed to the same at-most-once insert path: every row the real run
appends to the staging table is the row built from a new-classified
observation, carrying provenance `observation_source = 'wigle_api'`, a
back-reference `api_observation_id` to the authoritative observation
and the merge batch id, and after the run every new-classified
observation's conflict key is present in the table (the append is
skipped when the key already exists).  An observation receives only one
kind of verdict, but it receives one duplicate verdict per qualifying
local match — so an observation matched by several local rows is
counted more than once in the duplicate tally, rather than receiving
exactly one verdict. -/
theorem C3_amended (apiObsL : List ApiObs) (staging : List StagingObs)
    (b : String) (a : ApiObs) (ha : a ∈ apiObsL)
    (hids : (apiObsL.map (fun x => x.observation_id)).Nodup) :
    ((partitionRows (leftJoinRows staging apiObsL)).2.count a.observation_id
      = (sqliteMatches staging a).length) ∧
    ((partitionRows (leftJoinRows staging apiObsL)).1.count a.observation_id
      = (if (sqliteMatches staging a).isEmpty then 1 else 0)) ∧
    (∃ tail, (merge_observations apiObsL staging b false).2 =
        staging ++ tail ∧
      ∀ r ∈ tail, ∃ x ∈ apiObsL,
        (sqliteMatches staging x).isEmpty = true ∧
        r = toStagingObs b x ∧
        r.observation_source = "wigle_api" ∧
        r.api_observation_id = some x.observation_id ∧
        r.merge_batch_id = some b) ∧
    ((sqliteMatches staging a).isEmpty = true →
      a.insertFingerprint ∈
        ((merge_observations apiObsL staging b false).2).map
          StagingObs.fingerprint) := by
  have hmerge : (merge_observations apiObsL staging b false).2 =
      (insertNewObs b staging (apiObsL.filter
        (fun x => (sqliteMatches staging x).isEmpty))).1 := by
    simp only [merge_observations, reduceIte]
    rw [cands_eq_filter apiObsL staging hids]
    rfl
  refine ⟨(partition_verdict_counts apiObsL staging a ha hids).1,
    (partition_verdict_counts apiObsL staging a ha hids).2, ?_, ?_⟩
  · rcases insertNewObs_shape b
      (apiObsL.filter (fun x => (sqliteMatches staging x).isEmpty)) staging
      with ⟨tail, ht, hr⟩
    refine ⟨tail, by rw [hmerge, ht], ?_⟩
    intro r hrm
    rcases hr r hrm with ⟨x, hx, hrx⟩
    have hxf := List.mem_filter.mp hx
    exact ⟨x, hxf.1, hxf.2, hrx, by rw [hrx]; rfl, by rw [hrx]; rfl,
      by rw [hrx]; rfl⟩
  · intro hnew
    rw [hmerge]
    exact insertNewObs_key_present b _ staging a
      (List.mem_filter.mpr ⟨ha, hnew⟩)

/-- Witness for the amended C3 at a batch of one new-classified
observation over one non-matching local row. -/
theorem C3_amended_witness :
    (apiObsC3w ∈ [apiObsC3w] ∧
      ([apiObsC3w].map (fun x => x.observation_id)).Nodup) ∧
    (((partitionRows (leftJoinRows [stagC3w] [apiObsC3w])).2.count
        apiObsC3w.observation_id =
        (sqliteMatches [stagC3w] apiObsC3w).length) ∧
      ((partitionRows (leftJoinRows [stagC3w] [apiObsC3w])).1.count
        apiObsC3w.observation_id =
        (if (sqliteMatches [stagC3w] apiObsC3w).isEmpty then 1 else 0)) ∧
      (∃ tail, (merge_observations [apiObsC3w] [stagC3w] "b" false).2 =
          [stagC3w] ++ tail ∧
        ∀ r ∈ tail, ∃ x ∈ [apiObsC3w],
          (sqliteMatches [stagC3w] x).isEmpty = true ∧
          r = toStagingObs "b" x ∧
          r.observation_source = "wigle_api" ∧
          r.api_observation_id = some x.observation_id ∧
          r.merge_batch_id = some "b") ∧
      ((sqliteMatches [stagC3w] apiObsC3w).isEmpty = true →
        apiObsC3w.insertFingerprint ∈
          ((merge_observations [apiObsC3w] [stagC3w] "b" false).2).map
            StagingObs.fingerprint)) :=
  ⟨⟨by decide, by decide⟩,
    C3_amended [apiObsC3w] [stagC3w] "b" apiObsC3w (by decide) (by decide)⟩

end ShadowCheck
